import Mathlib

/-!
# FireSQL WHERE-clause translator — shallow embedding

A shallow embedding of `src/select/where.ts`: the recursive compiler that
turns a parsed SQL WHERE expression tree into a set of independent
Firestore-style filter queries.

* `SQL_Value`, `ASTNode` model the parser's value and expression nodes
  (stringly-typed `type` / `operator` fields become constructors, while the
  operator itself stays a `String`, exactly as the source dispatches on it).
* `Query` models `firebase.firestore.Query` at the interface the translator
  uses: an accumulator of conjoined filter primitives; `Query.withFilter`
  models `query.where(field, op, value)` returning a new query.
* `applyWhere`, `applyCondition`, `whereFilterOp`, `parseWhereLike`,
  `stringASTWhereValue` are the direct translations of the functions of the
  same names in `where.ts`; thrown `Error`s / failed `assert`s become
  `Except.error` with the source's message strings.
* `prefixSuccessor` and `astValueToNative` live in `src/utils`, which is not
  part of the sources; they are modelled from the spec (see their doc
  comments).
-/

namespace FireSQL

/-- A literal value node of the SQL parser (`SQL_Value`): tagged union over
the `string` / `number` / `bool` / `null` type tags. Nothing in the
translator computes with numbers, so an `Int` payload suffices. -/
inductive SQL_Value where
  | str (value : String)
  | num (value : Int)
  | bool (value : Bool)
  | null
deriving DecidableEq, Repr

/-- Modelled from the spec: the store's native scalar values
(`string|number|boolean|null`), the codomain of the value-literal
converter. -/
inductive NativeValue where
  | str (s : String)
  | num (n : Int)
  | bool (b : Bool)
  | null
deriving DecidableEq, Repr

/-- Modelled from the spec: the external value-literal converter
`astValueToNative` from `src/utils` (not included in the sources); §6 of the
spec: `toNative(astValue) -> primitive`, total over the four literal tags
{string, number, bool, null}. -/
def astValueToNative : SQL_Value → NativeValue
  | .str s => .str s
  | .num n => .num n
  | .bool b => .bool b
  | .null => .null

/-- One Firestore filter primitive `(field, operator, value)`; `op` is the
store's `WhereFilterOp` string (`==`, `<`, `<=`, `>`, `>=`,
`array-contains`, `array-contains-any`). -/
structure Filter where
  field : String
  op : String
  value : NativeValue
deriving DecidableEq, Repr

/-- A `firebase.firestore.Query` at the interface the translator uses: the
ordered list of conjoined filters accumulated so far. -/
structure Query where
  filters : List Filter
deriving DecidableEq, Repr

/-- `query.where(field, op, value)`: returns a new query with one more
conjoined filter; the receiver is not mutated. -/
def Query.withFilter (q : Query) (field fop : String) (value : NativeValue) : Query :=
  ⟨q.filters ++ [⟨field, fop, value⟩]⟩

/-- A WHERE expression node (`astWhere`): `binary_expr`, `column_ref`,
`expr_list` and literal value nodes, dispatched on by their `type` tag in
the source. The operator of a `binary_expr` stays a raw `String`, as in the
source. -/
inductive ASTNode where
  | binary_expr (operator : String) (left : ASTNode) (right : ASTNode)
  | column_ref (column : String)
  | expr_list (value : List SQL_Value)
  | val (v : SQL_Value)
deriving DecidableEq, Repr

/-- `node.type === 'column_ref'`. -/
def ASTNode.isColumnRef : ASTNode → Bool
  | .column_ref _ => true
  | _ => false

/-- `node.type === 'expr_list'`. -/
def ASTNode.isExprList : ASTNode → Bool
  | .expr_list _ => true
  | _ => false

/-- Error message of the failed left-side shape assertion. -/
def msgUnsupportedLeft : String := "Unsupported WHERE type on left side."

/-- Error message of the failed right-side shape assertion (IN). -/
def msgUnsupportedRight : String := "Unsupported WHERE type on right side."

/-- Error message of the failed LIKE right-operand assertion. -/
def msgLikeString : String := "Only strings are supported with LIKE in WHERE clause."

/-- Error message thrown for unsupported LIKE pattern shapes. -/
def msgLikeShape : String := "Only terms in the form of \"value%\" (string begins with value) and \"value\" (string equals value) are supported with LIKE in WHERE clause."

/-- Error message of the failed BETWEEN arity assertion. -/
def msgBetween : String := "BETWEEN needs 2 values in WHERE clause."

/-- Error message of the failed CONTAINS right-operand assertion. -/
def msgContainsTypes : String := "Only strings, numbers, booleans, and null are supported with CONTAINS in WHERE clause."

/-- Error message for the NOT / NOT CONTAINS operators. -/
def msgNotUnsupported : String := "\"NOT\" WHERE operator unsupported"

/-- Error message for operators outside the mapping table. -/
def msgUnknownOp : String := "Unknown WHERE operator"

/-- Error message for a WHERE node that is neither a binary expression nor a
bare column reference. -/
def msgUnsupportedWhere : String := "Unsupported WHERE clause"

/-- Modelled from the spec: the error of the external value-literal converter
when handed a node outside its {string, number, bool, null} domain (the
converter lives in `src/utils`, which is not part of the sources). -/
def msgValueType : String := "Unsupported value type in WHERE clause."

/-- `whereFilterOp` from `where.ts`: maps a SQL comparison token to a
Firestore `WhereFilterOp`, or throws. -/
def whereFilterOp (op : String) : Except String String :=
  if op = "=" ∨ op = "IS" then .ok "=="
  else if op = "<" ∨ op = "<=" ∨ op = ">" ∨ op = ">=" then .ok op
  else if op = "CONTAINS" then .ok "array-contains"
  else if op = "CONTAINS-ANY" then .ok "array-contains-any"
  else if op = "NOT" ∨ op = "NOT CONTAINS" then .error msgNotUnsupported
  else .error msgUnknownOp

/-- `SQL_ValueString`: a string literal node (`{ type: 'string', value }`). -/
structure SQL_ValueString where
  value : String
deriving DecidableEq, Repr

/-- The embedding of a string literal node into `SQL_Value` (in the source
this is TypeScript structural subtyping). -/
def SQL_ValueString.toSQLValue (s : SQL_ValueString) : SQL_Value := .str s.value

/-- `stringASTWhereValue` from `where.ts`: wraps a string as a string
literal node. -/
def stringASTWhereValue (str : String) : SQL_ValueString := ⟨str⟩

/-- `WhereLikeResult` from `where.ts`: at most one of the four optional
fields is populated by `parseWhereLike`. -/
structure WhereLikeResult where
  beginsWith : Option SQL_ValueString := none
  endsWith : Option SQL_ValueString := none
  contains : Option SQL_ValueString := none
  equals : Option SQL_ValueString := none
deriving DecidableEq, Repr

/-- JavaScript `str[i]`: `some` character, or `none` (`undefined`) out of
range. -/
def jsCharAt (s : String) (i : Nat) : Option Char := s.data[i]?

/-- JavaScript `str.substr(start, len)` for the non-negative arguments the
source uses (a clamped-to-zero length, as produced by `Nat` subtraction,
matches JavaScript's treatment of a negative length). -/
def jsSubstr (s : String) (start len : Nat) : String := ⟨(s.data.drop start).take len⟩

/-- JavaScript `str.substring(start)` for non-negative `start`. -/
def jsSubstringFrom (s : String) (start : Nat) : String := ⟨s.data.drop start⟩

/-- `parseWhereLike` from `where.ts`: decomposes a LIKE pattern by looking
only at a `%` in the first and/or last character position. -/
def parseWhereLike (str : String) : WhereLikeResult :=
  let strLength := str.length
  if jsCharAt str 0 = some '%' then
    if jsCharAt str (strLength - 1) = some '%' then
      { contains := some (stringASTWhereValue (jsSubstr str 1 (strLength - 2))) }
    else
      { endsWith := some (stringASTWhereValue (jsSubstringFrom str 1)) }
  else if jsCharAt str (strLength - 1) = some '%' then
    { beginsWith := some (stringASTWhereValue (jsSubstr str 0 (strLength - 1))) }
  else
    { equals := some (stringASTWhereValue str) }

/-- Helper for `prefixSuccessor`, working on the reversed character list:
increment the last character, dropping characters whose increment would not
be a valid scalar value and cascading onto the previous one. -/
def prefixSuccessorChars : List Char → List Char
  | [] => []
  | c :: rest =>
    if c.toNat + 1 < 0xd800 then Char.ofNat (c.toNat + 1) :: rest
    else prefixSuccessorChars rest

/-- Modelled from the spec: the external prefix-successor utility from
`src/utils` (not included in the sources); §6 of the spec: given a string,
return a string strictly greater than every string having it as a prefix,
constructed by incrementing the final character, cascading on overflow. The
claims constrain only where the translator places `prefixSuccessor`'s
output, not its value. -/
def prefixSuccessor (value : String) : String :=
  ⟨(prefixSuccessorChars value.data.reverse).reverse⟩

/-- The non-rewriting branch of `applyCondition` from `where.ts`: convert
the value, map the operator, and apply the single primitive filter to every
query of the set. -/
def applyConditionBase (queries : List Query) (field : String) (astOperator : String)
    (astValue : SQL_Value) : Except String (List Query) := do
  let value := astValueToNative astValue
  let operator ← whereFilterOp astOperator
  return queries.map fun query => query.withFilter field operator value

/-- `applyCondition` from `where.ts`: applies one `(field, operator, value)`
condition to every query of the set; owns the `!=`/`<>` rewrites. The source
function calls itself recursively in the `!=`/`<>` branch; every such
self-call passes operator `=`, `<` or `>` and therefore lands in the
non-rewriting branch, so that one bounded level of recursion is unfolded
into `applyConditionBase` here to keep the definition structurally
executable; `applyCondition_self_call` proves the unfolding sound. -/
def applyCondition (queries : List Query) (field : String) (astOperator : String)
    (astValue : SQL_Value) : Except String (List Query) :=
  if astOperator = "!=" ∨ astOperator = "<>" then
    match astValue with
    | .bool b =>
      -- boolean value: perform == with the negation of the value
      applyConditionBase queries field "=" (.bool (!b))
    | v => do
      -- split into one query with < and another with >
      let l ← applyConditionBase queries field "<" v
      let r ← applyConditionBase queries field ">" v
      return l ++ r
  else applyConditionBase queries field astOperator astValue

/-- On the operators the `!=`/`<>` branch recurses with, `applyCondition`
and `applyConditionBase` agree, so the unfolding in `applyCondition` is the
source's recursive call. -/
theorem applyCondition_self_call (Qs : List Query) (f : String) (op : String) (v : SQL_Value)
    (h : op = "=" ∨ op = "<" ∨ op = ">") :
    applyCondition Qs f op v = applyConditionBase Qs f op v := by
  rcases h with h | h | h <;> subst h <;>
    exact if_neg (by decide)

/-- `applyWhere` from `where.ts`: the recursive expression translator. The
source's failed `assert` calls on node shapes become the non-matching
branches of the `match`es, with the same message strings. -/
def applyWhere (queries : List Query) (astWhere : ASTNode) : Except String (List Query) :=
  match astWhere with
  | .binary_expr operator left right =>
    if operator = "AND" then do
      let queries ← applyWhere queries left
      applyWhere queries right
    else if operator = "OR" then do
      let l ← applyWhere queries left
      let r ← applyWhere queries right
      return l ++ r
    else if operator = "IN" then
      match left with
      | .column_ref column =>
        match right with
        | .expr_list values => do
          let results ← values.mapM fun valueObj => applyCondition queries column "=" valueObj
          return results.flatten
        | _ => .error msgUnsupportedRight
      | _ => .error msgUnsupportedLeft
    else if operator = "LIKE" then
      match left with
      | .column_ref column =>
        match right with
        | .val (.str pattern) =>
          let whereLike := parseWhereLike pattern
          match whereLike.equals with
          | some eqv => applyCondition queries column "=" eqv.toSQLValue
          | none =>
            match whereLike.beginsWith with
            | some bw => do
              let successorStr := prefixSuccessor bw.value
              let queries ← applyCondition queries column ">=" bw.toSQLValue
              applyCondition queries column "<" (stringASTWhereValue successorStr).toSQLValue
            | none => .error msgLikeShape
        | _ => .error msgLikeString
      | _ => .error msgUnsupportedLeft
    else if operator = "BETWEEN" then
      match left with
      | .column_ref column =>
        match right with
        | .expr_list [lo, hi] => do
          let queries ← applyCondition queries column ">=" lo
          applyCondition queries column "<=" hi
        | _ => .error msgBetween
      | _ => .error msgUnsupportedLeft
    else if operator = "CONTAINS" then
      match left with
      | .column_ref column =>
        match right with
        | .val v => applyCondition queries column "CONTAINS" v
        | _ => .error msgContainsTypes
      | _ => .error msgUnsupportedLeft
    else
      match left with
      | .column_ref column =>
        match right with
        | .val v => applyCondition queries column operator v
        | _ => .error msgValueType
      | _ => .error msgUnsupportedLeft
  | .column_ref column =>
    -- bare column predicate: documents where the column is literally true
    .ok (queries.map fun query => query.withFilter column "==" (.bool true))
  | _ => .error msgUnsupportedWhere

/-- The unfiltered seed query the translation pipeline starts from. -/
def emptyQuery : Query := ⟨[]⟩

/-!
## Proof-support layer

`applyDeltas` is the normal form of a successful translation: every
expression that translates at all acts on an incoming query set by
appending, for each element of a set-independent list of filter suffixes,
that suffix to every incoming query (`applyWhere_canonical` below).
-/

/-- Append each filter suffix of `ds` to every query of `queries`,
concatenating the resulting blocks. -/
def applyDeltas (queries : List Query) (ds : List (List Filter)) : List Query :=
  ds.flatMap fun d => queries.map fun q => ⟨q.filters ++ d⟩

theorem applyDeltas_nil (Qs : List Query) : applyDeltas Qs [] = [] := rfl

theorem applyDeltas_cons (Qs : List Query) (d : List Filter) (ds : List (List Filter)) :
    applyDeltas Qs (d :: ds) = (Qs.map fun q => ⟨q.filters ++ d⟩) ++ applyDeltas Qs ds := by
  simp [applyDeltas]

theorem applyDeltas_append (Qs : List Query) (D1 D2 : List (List Filter)) :
    applyDeltas Qs (D1 ++ D2) = applyDeltas Qs D1 ++ applyDeltas Qs D2 := by
  simp [applyDeltas]

theorem applyDeltas_singleton (Qs : List Query) (d : List Filter) :
    applyDeltas Qs [d] = Qs.map fun q => ⟨q.filters ++ d⟩ := by
  simp [applyDeltas]

theorem applyDeltas_length (Qs : List Query) (D : List (List Filter)) :
    (applyDeltas Qs D).length = D.length * Qs.length := by
  induction D with
  | nil => simp [applyDeltas]
  | cons d ds ih => rw [applyDeltas_cons]; simp [ih, Nat.succ_mul, Nat.add_comm]

theorem applyDeltas_map_append (Qs : List Query) (D1 : List (List Filter)) (d2 : List Filter) :
    (applyDeltas Qs D1).map (fun q => ⟨q.filters ++ d2⟩) =
      applyDeltas Qs (D1.map fun d1 => d1 ++ d2) := by
  induction D1 with
  | nil => rfl
  | cons d1 ds1 ih =>
    rw [applyDeltas_cons, List.map_append, ih, List.map_cons, applyDeltas_cons]
    simp [List.map_map, Function.comp, List.append_assoc]

theorem applyDeltas_comp (Qs : List Query) (D1 D2 : List (List Filter)) :
    applyDeltas (applyDeltas Qs D1) D2 =
      applyDeltas Qs (D2.flatMap fun d2 => D1.map fun d1 => d1 ++ d2) := by
  induction D2 with
  | nil => simp [applyDeltas]
  | cons d2 ds ih =>
    rw [applyDeltas_cons, List.flatMap_cons, applyDeltas_append, ih, applyDeltas_map_append]

theorem applyDeltas_seed (D : List (List Filter)) :
    applyDeltas [emptyQuery] D = D.map fun d => Query.mk d := by
  induction D with
  | nil => rfl
  | cons d ds ih => rw [applyDeltas_cons, ih]; simp [emptyQuery]

/-! Reduction lemmas re-expressing the branches of `applyCondition` and
`applyWhere`. -/

theorem applyCondition_not_neq (Qs : List Query) (f op : String) (v : SQL_Value)
    (h : ¬(op = "!=" ∨ op = "<>")) :
    applyCondition Qs f op v =
      whereFilterOp op >>= fun nop =>
        pure (Qs.map fun q => q.withFilter f nop (astValueToNative v)) := by
  unfold applyCondition
  rw [if_neg h]
  rfl

theorem applyCondition_neq_bool (Qs : List Query) (f op : String) (b : Bool)
    (h : op = "!=" ∨ op = "<>") :
    applyCondition Qs f op (.bool b) = applyCondition Qs f "=" (.bool (!b)) := by
  unfold applyCondition
  rw [if_pos h, if_neg (by decide)]

theorem applyCondition_neq_nonbool (Qs : List Query) (f op : String) (v : SQL_Value)
    (h : op = "!=" ∨ op = "<>") (hv : ∀ b, v ≠ .bool b) :
    applyCondition Qs f op v =
      applyCondition Qs f "<" v >>= fun l =>
        applyCondition Qs f ">" v >>= fun r => pure (l ++ r) := by
  cases v
  case bool b => exact absurd rfl (hv b)
  all_goals unfold applyCondition
  all_goals rw [if_pos h, if_neg (by decide), if_neg (by decide)]

theorem applyCondition_ok_op (Qs : List Query) (f op nop : String) (v : SQL_Value)
    (h : ¬(op = "!=" ∨ op = "<>")) (hop : whereFilterOp op = .ok nop) :
    applyCondition Qs f op v = .ok (Qs.map fun q => q.withFilter f nop (astValueToNative v)) := by
  rw [applyCondition_not_neq Qs f op v h, hop]
  rfl

theorem applyCondition_eq_op (Qs : List Query) (f : String) (v : SQL_Value) :
    applyCondition Qs f "=" v = .ok (Qs.map fun q => q.withFilter f "==" (astValueToNative v)) :=
  applyCondition_ok_op Qs f "=" "==" v (by decide) rfl

theorem applyCondition_neq_nonbool_ok (Qs : List Query) (f op : String) (v : SQL_Value)
    (h : op = "!=" ∨ op = "<>") (hv : ∀ b, v ≠ .bool b) :
    applyCondition Qs f op v =
      .ok ((Qs.map fun q => q.withFilter f "<" (astValueToNative v)) ++
           Qs.map fun q => q.withFilter f ">" (astValueToNative v)) := by
  rw [applyCondition_neq_nonbool Qs f op v h hv,
    applyCondition_ok_op Qs f "<" "<" v (by decide) rfl,
    applyCondition_ok_op Qs f ">" ">" v (by decide) rfl]
  rfl

theorem applyWhere_default (Qs : List Query) (op : String) (L R : ASTNode)
    (h1 : op ≠ "AND") (h2 : op ≠ "OR") (h3 : op ≠ "IN") (h4 : op ≠ "LIKE")
    (h5 : op ≠ "BETWEEN") (h6 : op ≠ "CONTAINS") :
    applyWhere Qs (.binary_expr op L R) =
      (match L with
      | .column_ref column =>
        (match R with
        | .val v => applyCondition Qs column op v
        | _ => .error msgValueType)
      | _ => .error msgUnsupportedLeft) := by
  rw [applyWhere.eq_def]
  simp only [if_neg h1, if_neg h2, if_neg h3, if_neg h4, if_neg h5, if_neg h6]

theorem exBindOk {α β : Type} (a : α) (f : α → Except String β) :
    (Except.ok a >>= f) = f a := rfl

theorem exBindErr {α β : Type} (e : String) (f : α → Except String β) :
    ((Except.error e : Except String α) >>= f) = .error e := rfl

theorem applyWhere_like_def (Qs : List Query) (col pattern : String) :
    applyWhere Qs (.binary_expr "LIKE" (.column_ref col) (.val (.str pattern))) =
      (match (parseWhereLike pattern).equals with
      | some eqv => applyCondition Qs col "=" eqv.toSQLValue
      | none =>
        (match (parseWhereLike pattern).beginsWith with
        | some bw =>
          applyCondition Qs col ">=" bw.toSQLValue >>= fun qs =>
            applyCondition qs col "<" (stringASTWhereValue (prefixSuccessor bw.value)).toSQLValue
        | none => .error msgLikeShape)) := rfl

theorem mapM_applyCondition_eq (col : String) (vs : List SQL_Value) (Qs : List Query) :
    (vs.mapM fun v => applyCondition Qs col "=" v) =
      .ok (vs.map fun v => Qs.map fun q => q.withFilter col "==" (astValueToNative v)) := by
  induction vs with
  | nil => rfl
  | cons v vs ih => rw [List.mapM_cons, applyCondition_eq_op, ih]; rfl

theorem flatten_map_eq_applyDeltas (col : String) (vs : List SQL_Value) (Qs : List Query) :
    (vs.map fun v => Qs.map fun q => q.withFilter col "==" (astValueToNative v)).flatten =
      applyDeltas Qs (vs.map fun v => [⟨col, "==", astValueToNative v⟩]) := by
  induction vs with
  | nil => rfl
  | cons v vs ih =>
    rw [List.map_cons, List.flatten_cons, ih, List.map_cons, applyDeltas_cons]
    rfl

/-- A successful `applyCondition` is, for every incoming query set, the
appending of a set-independent list of filter suffixes. -/
theorem applyCondition_canonical (Qs S : List Query) (f op : String) (v : SQL_Value)
    (h : applyCondition Qs f op v = .ok S) :
    ∃ D, ∀ Qs', applyCondition Qs' f op v = .ok (applyDeltas Qs' D) := by
  by_cases hop : op = "!=" ∨ op = "<>"
  · cases v with
    | bool b =>
      refine ⟨[[⟨f, "==", .bool (!b)⟩]], fun Qs' => ?_⟩
      rw [applyCondition_neq_bool Qs' f op b hop, applyCondition_eq_op, applyDeltas_singleton]
      rfl
    | str s =>
      refine ⟨[[⟨f, "<", .str s⟩], [⟨f, ">", .str s⟩]], fun Qs' => ?_⟩
      rw [applyCondition_neq_nonbool_ok Qs' f op (.str s) hop (fun b hb => by cases hb),
        applyDeltas_cons, applyDeltas_singleton]
      rfl
    | num n =>
      refine ⟨[[⟨f, "<", .num n⟩], [⟨f, ">", .num n⟩]], fun Qs' => ?_⟩
      rw [applyCondition_neq_nonbool_ok Qs' f op (.num n) hop (fun b hb => by cases hb),
        applyDeltas_cons, applyDeltas_singleton]
      rfl
    | null =>
      refine ⟨[[⟨f, "<", .null⟩], [⟨f, ">", .null⟩]], fun Qs' => ?_⟩
      rw [applyCondition_neq_nonbool_ok Qs' f op .null hop (fun b hb => by cases hb),
        applyDeltas_cons, applyDeltas_singleton]
      rfl
  · cases hw : whereFilterOp op with
    | error e =>
      rw [applyCondition_not_neq Qs f op v hop, hw, exBindErr] at h
      exact Except.noConfusion h
    | ok nop =>
      refine ⟨[[⟨f, nop, astValueToNative v⟩]], fun Qs' => ?_⟩
      rw [applyCondition_ok_op Qs' f op nop v hop hw, applyDeltas_singleton]
      rfl

/-- A successful `applyWhere` is, for every incoming query set, the
appending of a set-independent list of filter suffixes: the translated
expression fully determines a list of filter conjunctions, and each of them
is appended to every incoming query. -/
theorem applyWhere_canonical (E : ASTNode) :
    ∀ Qs S : List Query, applyWhere Qs E = .ok S →
      ∃ D, ∀ Qs', applyWhere Qs' E = .ok (applyDeltas Qs' D) := by
  induction E with
  | column_ref col =>
    intro Qs S h
    refine ⟨[[⟨col, "==", .bool true⟩]], fun Qs' => ?_⟩
    rw [show applyWhere Qs' (.column_ref col) =
      .ok (Qs'.map fun q => q.withFilter col "==" (.bool true)) from rfl, applyDeltas_singleton]
    rfl
  | expr_list vs =>
    intro Qs S h
    exact Except.noConfusion h
  | val v =>
    intro Qs S h
    exact Except.noConfusion h
  | binary_expr op L R ihL ihR =>
    intro Qs S h
    by_cases hAND : op = "AND"
    · subst hAND
      replace h : (applyWhere Qs L >>= fun qs => applyWhere qs R) = .ok S := h
      cases hL : applyWhere Qs L with
      | error e => rw [hL, exBindErr] at h; exact Except.noConfusion h
      | ok S1 =>
        rw [hL, exBindOk] at h
        obtain ⟨DL, hDL⟩ := ihL Qs S1 hL
        obtain ⟨DR, hDR⟩ := ihR S1 S h
        refine ⟨DR.flatMap fun d2 => DL.map fun d1 => d1 ++ d2, fun Qs' => ?_⟩
        show (applyWhere Qs' L >>= fun qs => applyWhere qs R) = _
        rw [hDL Qs', exBindOk, hDR (applyDeltas Qs' DL), applyDeltas_comp]
    · by_cases hOR : op = "OR"
      · subst hOR
        replace h : (applyWhere Qs L >>= fun l =>
          applyWhere Qs R >>= fun r => pure (l ++ r)) = .ok S := h
        cases hL : applyWhere Qs L with
        | error e => rw [hL, exBindErr] at h; exact Except.noConfusion h
        | ok SL =>
          rw [hL, exBindOk] at h
          cases hR : applyWhere Qs R with
          | error e => rw [hR, exBindErr] at h; exact Except.noConfusion h
          | ok SR =>
            obtain ⟨DL, hDL⟩ := ihL Qs SL hL
            obtain ⟨DR, hDR⟩ := ihR Qs SR hR
            refine ⟨DL ++ DR, fun Qs' => ?_⟩
            show (applyWhere Qs' L >>= fun l =>
              applyWhere Qs' R >>= fun r => pure (l ++ r)) = _
            rw [hDL Qs', exBindOk, hDR Qs', exBindOk, applyDeltas_append]
            rfl
      · by_cases hIN : op = "IN"
        · subst hIN
          cases L with
          | column_ref col =>
            cases R with
            | expr_list vs =>
              refine ⟨vs.map fun v => [⟨col, "==", astValueToNative v⟩], fun Qs' => ?_⟩
              show ((vs.mapM fun v => applyCondition Qs' col "=" v) >>= fun results =>
                pure results.flatten) = _
              rw [mapM_applyCondition_eq, exBindOk]
              exact congrArg Except.ok (flatten_map_eq_applyDeltas col vs Qs')
            | binary_expr o l r => exact Except.noConfusion h
            | column_ref c => exact Except.noConfusion h
            | val v => exact Except.noConfusion h
          | binary_expr o l r => exact Except.noConfusion h
          | expr_list vs => exact Except.noConfusion h
          | val v => exact Except.noConfusion h
        · by_cases hLIKE : op = "LIKE"
          · subst hLIKE
            cases L with
            | column_ref col =>
              cases R with
              | val v =>
                cases v with
                | str pattern =>
                  rw [applyWhere_like_def] at h
                  cases heq : (parseWhereLike pattern).equals with
                  | some eqv =>
                    refine ⟨[[⟨col, "==", .str eqv.value⟩]], fun Qs' => ?_⟩
                    rw [applyWhere_like_def, heq]
                    show applyCondition Qs' col "=" eqv.toSQLValue = _
                    rw [applyCondition_eq_op, applyDeltas_singleton]
                    rfl
                  | none =>
                    rw [heq] at h
                    cases hbw : (parseWhereLike pattern).beginsWith with
                    | some bw =>
                      refine ⟨[[⟨col, ">=", .str bw.value⟩,
                        ⟨col, "<", .str (prefixSuccessor bw.value)⟩]], fun Qs' => ?_⟩
                      rw [applyWhere_like_def, heq, hbw]
                      show (applyCondition Qs' col ">=" bw.toSQLValue >>= fun qs =>
                        applyCondition qs col "<"
                          (stringASTWhereValue (prefixSuccessor bw.value)).toSQLValue) = _
                      rw [applyCondition_ok_op Qs' col ">=" ">=" bw.toSQLValue (by decide) rfl,
                        exBindOk,
                        applyCondition_ok_op _ col "<" "<" _ (by decide) rfl,
                        applyDeltas_singleton]
                      simp [Query.withFilter, List.map_map, Function.comp,
                        SQL_ValueString.toSQLValue, stringASTWhereValue, astValueToNative]
                    | none => rw [hbw] at h; exact Except.noConfusion h
                | num n => exact Except.noConfusion h
                | bool b => exact Except.noConfusion h
                | null => exact Except.noConfusion h
              | binary_expr o l r => exact Except.noConfusion h
              | column_ref c => exact Except.noConfusion h
              | expr_list vs => exact Except.noConfusion h
            | binary_expr o l r => exact Except.noConfusion h
            | expr_list vs => exact Except.noConfusion h
            | val v => exact Except.noConfusion h
          · by_cases hBET : op = "BETWEEN"
            · subst hBET
              cases L with
              | column_ref col =>
                cases R with
                | expr_list vs =>
                  match vs with
                  | [] => exact Except.noConfusion h
                  | [lo] => exact Except.noConfusion h
                  | lo :: hi :: x :: xs => exact Except.noConfusion h
                  | [lo, hi] =>
                    refine ⟨[[⟨col, ">=", astValueToNative lo⟩,
                      ⟨col, "<=", astValueToNative hi⟩]], fun Qs' => ?_⟩
                    show (applyCondition Qs' col ">=" lo >>= fun qs =>
                      applyCondition qs col "<=" hi) = _
                    rw [applyCondition_ok_op Qs' col ">=" ">=" lo (by decide) rfl, exBindOk,
                      applyCondition_ok_op _ col "<=" "<=" hi (by decide) rfl,
                      applyDeltas_singleton]
                    simp [Query.withFilter, List.map_map, Function.comp]
                | binary_expr o l r => exact Except.noConfusion h
                | column_ref c => exact Except.noConfusion h
                | val v => exact Except.noConfusion h
              | binary_expr o l r => exact Except.noConfusion h
              | expr_list vs => exact Except.noConfusion h
              | val v => exact Except.noConfusion h
            · by_cases hCON : op = "CONTAINS"
              · subst hCON
                cases L with
                | column_ref col =>
                  cases R with
                  | val v =>
                    refine ⟨[[⟨col, "array-contains", astValueToNative v⟩]], fun Qs' => ?_⟩
                    show applyCondition Qs' col "CONTAINS" v = _
                    rw [applyCondition_ok_op Qs' col "CONTAINS" "array-contains" v
                      (by decide) rfl, applyDeltas_singleton]
                    rfl
                  | binary_expr o l r => exact Except.noConfusion h
                  | column_ref c => exact Except.noConfusion h
                  | expr_list vs => exact Except.noConfusion h
                | binary_expr o l r => exact Except.noConfusion h
                | expr_list vs => exact Except.noConfusion h
                | val v => exact Except.noConfusion h
              · rw [applyWhere_default Qs op L R hAND hOR hIN hLIKE hBET hCON] at h
                cases L with
                | column_ref col =>
                  cases R with
                  | val v =>
                    obtain ⟨D, hD⟩ := applyCondition_canonical Qs S col op v h
                    refine ⟨D, fun Qs' => ?_⟩
                    rw [applyWhere_default Qs' op (.column_ref col) (.val v)
                      hAND hOR hIN hLIKE hBET hCON]
                    exact hD Qs'
                  | binary_expr o l r => exact Except.noConfusion h
                  | column_ref c => exact Except.noConfusion h
                  | expr_list vs => exact Except.noConfusion h
                | binary_expr o l r => exact Except.noConfusion h
                | expr_list vs => exact Except.noConfusion h
                | val v => exact Except.noConfusion h

theorem flatMap_val_singleton {α β : Type} (vs : List α) (f : α → β) :
    (vs.flatMap fun v => [f v]) = vs.map f := by
  induction vs <;> simp_all

/-- How many of the four optional fields of a `WhereLikeResult` are
populated. -/
def WhereLikeResult.populatedCount (r : WhereLikeResult) : Nat :=
  (if r.beginsWith.isSome then 1 else 0) + (if r.endsWith.isSome then 1 else 0) +
    (if r.contains.isSome then 1 else 0) + (if r.equals.isSome then 1 else 0)

/-!
## Claims
-/

/-- C1: translating `BinaryExpr(AND, L, R)` against a query set `Q` equals
translating `R` against the result of translating `L` against `Q` —
sequential refinement, each incoming query narrowed by `L` and every
resulting query then narrowed by `R`, with no cross product of `L`-results
and `R`-results. -/
theorem and_is_sequential_refinement (Qs : List Query) (L R : ASTNode) :
    applyWhere Qs (.binary_expr "AND" L R) =
      applyWhere Qs L >>= fun qs => applyWhere qs R := rfl

/-- C2: when both sides translate successfully against `Q`, translating
`BinaryExpr(OR, L, R)` returns exactly the concatenation of
`translate(Q, L)` and `translate(Q, R)`, both branches starting from the
original incoming set, so the result's length is the sum of the two
branch lengths; no deduplication is performed. -/
theorem or_is_concat_of_branches (Qs : List Query) (L R : ASTNode) (l r : List Query)
    (hl : applyWhere Qs L = .ok l) (hr : applyWhere Qs R = .ok r) :
    applyWhere Qs (.binary_expr "OR" L R) = .ok (l ++ r) ∧
      (l ++ r).length = l.length + r.length := by
  constructor
  · show (applyWhere Qs L >>= fun a => applyWhere Qs R >>= fun b => pure (a ++ b)) = _
    rw [hl, exBindOk, hr, exBindOk]
    rfl
  · exact List.length_append l r

/-- Witness for C2 at `a = 1 OR b = 2` against the single-query seed. -/
theorem or_is_concat_of_branches_witness :
    applyWhere [emptyQuery] (.binary_expr "OR"
        (.binary_expr "=" (.column_ref "a") (.val (.num 1)))
        (.binary_expr "=" (.column_ref "b") (.val (.num 2)))) =
      .ok [⟨[⟨"a", "==", .num 1⟩]⟩, ⟨[⟨"b", "==", .num 2⟩]⟩] ∧
    ([(⟨[⟨"a", "==", .num 1⟩]⟩ : Query)] ++ [(⟨[⟨"b", "==", .num 2⟩]⟩ : Query)]).length = 1 + 1 :=
  or_is_concat_of_branches [emptyQuery]
    (.binary_expr "=" (.column_ref "a") (.val (.num 1)))
    (.binary_expr "=" (.column_ref "b") (.val (.num 2)))
    [⟨[⟨"a", "==", .num 1⟩]⟩] [⟨[⟨"b", "==", .num 2⟩]⟩] rfl rfl

/-- C4: a well-shaped `IN` (ColumnRef on the left, ExprList on the right)
translates to the concatenation, over the values in list order, of the
equality condition `(col, =, v)` applied to the original incoming set; a
single-query seed yields exactly one query per value, the i-th filtering
`col = v_i`; a left operand that is not a ColumnRef, or a right operand
that is not an ExprList, fails with the corresponding shape error. -/
theorem in_is_concat_of_equalities (Qs : List Query) (col : String) (values : List SQL_Value) :
    (applyWhere Qs (.binary_expr "IN" (.column_ref col) (.expr_list values)) =
      .ok (values.flatMap fun v => Qs.map fun q => q.withFilter col "==" (astValueToNative v))) ∧
    (∀ q : Query, applyWhere [q] (.binary_expr "IN" (.column_ref col) (.expr_list values)) =
      .ok (values.map fun v => q.withFilter col "==" (astValueToNative v))) ∧
    (∀ L R : ASTNode, L.isColumnRef = false →
      applyWhere Qs (.binary_expr "IN" L R) = .error msgUnsupportedLeft) ∧
    (∀ R : ASTNode, R.isExprList = false →
      applyWhere Qs (.binary_expr "IN" (.column_ref col) R) = .error msgUnsupportedRight) := by
  have key : ∀ Qs' : List Query,
      applyWhere Qs' (.binary_expr "IN" (.column_ref col) (.expr_list values)) =
        .ok (values.flatMap fun v => Qs'.map fun q => q.withFilter col "==" (astValueToNative v)) := by
    intro Qs'
    show ((values.mapM fun v => applyCondition Qs' col "=" v) >>= fun results =>
      pure results.flatten) = _
    rw [mapM_applyCondition_eq, exBindOk]
    rfl
  refine ⟨key Qs, fun q => ?_, fun L R hL => ?_, fun R hR => ?_⟩
  · rw [key [q]]
    exact congrArg Except.ok (flatMap_val_singleton values fun v =>
      q.withFilter col "==" (astValueToNative v))
  · cases L with
    | column_ref c => simp [ASTNode.isColumnRef] at hL
    | binary_expr o a b => rfl
    | expr_list vs => rfl
    | val v => rfl
  · cases R with
    | expr_list vs => simp [ASTNode.isExprList] at hR
    | binary_expr o a b => rfl
    | column_ref c => rfl
    | val v => rfl

/-- Witness for C4: `col IN (1, 2, 3)` against the single-query seed yields
exactly three queries, plus the two shape errors. -/
theorem in_is_concat_of_equalities_witness :
    applyWhere [emptyQuery] (.binary_expr "IN" (.column_ref "col")
        (.expr_list [.num 1, .num 2, .num 3])) =
      .ok [⟨[⟨"col", "==", .num 1⟩]⟩, ⟨[⟨"col", "==", .num 2⟩]⟩, ⟨[⟨"col", "==", .num 3⟩]⟩] ∧
    applyWhere [emptyQuery] (.binary_expr "IN" (.val (.num 1)) (.column_ref "c")) =
      .error msgUnsupportedLeft ∧
    applyWhere [emptyQuery] (.binary_expr "IN" (.column_ref "col") (.val (.num 1))) =
      .error msgUnsupportedRight := by
  have h := in_is_concat_of_equalities [emptyQuery] "col" [.num 1, .num 2, .num 3]
  exact ⟨h.2.1 emptyQuery, h.2.2.1 (.val (.num 1)) (.column_ref "c") rfl,
    h.2.2.2 (.val (.num 1)) rfl⟩

/-- C5: for the `!=` / `<>` operators, a boolean value is rewritten to the
equality condition on the negated literal (one query per incoming query),
and a non-boolean value is rewritten to the concatenation of the `<` and
`>` conditions applied to the incoming set (two queries from a single
seed, filtering `f < v` and `f > v`). -/
theorem neq_rewrites (op : String) (hop : op = "!=" ∨ op = "<>") (Qs : List Query) (f : String) :
    (∀ b : Bool,
      applyCondition Qs f op (.bool b) = applyCondition Qs f "=" (.bool (!b)) ∧
      applyCondition Qs f op (.bool b) =
        .ok (Qs.map fun q => q.withFilter f "==" (.bool (!b)))) ∧
    (∀ (q : Query) (b : Bool),
      applyCondition [q] f op (.bool b) = .ok [q.withFilter f "==" (.bool (!b))]) ∧
    (∀ v : SQL_Value, (∀ b, v ≠ .bool b) →
      applyCondition Qs f op v =
        .ok ((Qs.map fun q => q.withFilter f "<" (astValueToNative v)) ++
          Qs.map fun q => q.withFilter f ">" (astValueToNative v))) ∧
    (∀ (q : Query) (v : SQL_Value), (∀ b, v ≠ .bool b) →
      applyCondition [q] f op v =
        .ok [q.withFilter f "<" (astValueToNative v),
          q.withFilter f ">" (astValueToNative v)]) := by
  refine ⟨fun b => ⟨applyCondition_neq_bool Qs f op b hop, ?_⟩, fun q b => ?_,
    fun v hv => applyCondition_neq_nonbool_ok Qs f op v hop hv, fun q v hv => ?_⟩
  · rw [applyCondition_neq_bool Qs f op b hop, applyCondition_eq_op]
    rfl
  · rw [applyCondition_neq_bool [q] f op b hop, applyCondition_eq_op]
    rfl
  · rw [applyCondition_neq_nonbool_ok [q] f op v hop hv]
    rfl

/-- Witness for C5: `active != true` yields one query with `active = false`;
`rating != 3` yields the `<` query and the `>` query. -/
theorem neq_rewrites_witness :
    applyCondition [emptyQuery] "active" "!=" (.bool true) =
      .ok [⟨[⟨"active", "==", .bool false⟩]⟩] ∧
    applyCondition [emptyQuery] "rating" "!=" (.num 3) =
      .ok [⟨[⟨"rating", "<", .num 3⟩]⟩, ⟨[⟨"rating", ">", .num 3⟩]⟩] :=
  ⟨(neq_rewrites "!=" (Or.inl rfl) [emptyQuery] "active").2.1 emptyQuery true,
    (neq_rewrites "!=" (Or.inl rfl) [emptyQuery] "rating").2.2.2 emptyQuery (.num 3) (by decide)⟩

/-- C8: the operator mapper sends `=`/`IS` to `==`, passes `<`, `<=`, `>`,
`>=` through, maps `CONTAINS` and `CONTAINS-ANY` to the array-membership
operators, throws the explicit unsupported-operator error for `NOT` and
`NOT CONTAINS`, throws the generic unknown-operator error for every other
token, and never returns a filter operator for a token outside the mapped
set. -/
theorem whereFilterOp_table :
    whereFilterOp "=" = .ok "==" ∧ whereFilterOp "IS" = .ok "==" ∧
    whereFilterOp "<" = .ok "<" ∧ whereFilterOp "<=" = .ok "<=" ∧
    whereFilterOp ">" = .ok ">" ∧ whereFilterOp ">=" = .ok ">=" ∧
    whereFilterOp "CONTAINS" = .ok "array-contains" ∧
    whereFilterOp "CONTAINS-ANY" = .ok "array-contains-any" ∧
    whereFilterOp "NOT" = .error msgNotUnsupported ∧
    whereFilterOp "NOT CONTAINS" = .error msgNotUnsupported ∧
    (∀ op : String, op ∉ (["=", "IS", "<", "<=", ">", ">=", "CONTAINS", "CONTAINS-ANY",
        "NOT", "NOT CONTAINS"] : List String) →
      whereFilterOp op = .error msgUnknownOp) ∧
    (∀ op nop : String, whereFilterOp op = .ok nop →
      op ∈ (["=", "IS", "<", "<=", ">", ">=", "CONTAINS", "CONTAINS-ANY"] : List String)) := by
  refine ⟨rfl, rfl, rfl, rfl, rfl, rfl, rfl, rfl, rfl, rfl, fun op hop => ?_, fun op nop h => ?_⟩
  · simp only [whereFilterOp]
    split_ifs with h1 h2 h3 h4 h5
    · exfalso; rcases h1 with h | h <;> subst h <;> simp at hop
    · exfalso; rcases h2 with h | h | h | h <;> subst h <;> simp at hop
    · exfalso; subst h3; simp at hop
    · exfalso; subst h4; simp at hop
    · exfalso; rcases h5 with h | h <;> subst h <;> simp at hop
    · rfl
  · simp only [whereFilterOp] at h
    split_ifs at h with h1 h2 h3 h4 h5
    · rcases h1 with h1 | h1 <;> subst h1 <;> simp
    · rcases h2 with h2 | h2 | h2 | h2 <;> subst h2 <;> simp
    · subst h3; simp
    · subst h4; simp

/-- Witness for C8: `FOO` is rejected with the unknown-operator error, and
`=` is in the mapped set. -/
theorem whereFilterOp_table_witness :
    whereFilterOp "FOO" = .error msgUnknownOp ∧
    "=" ∈ (["=", "IS", "<", "<=", ">", ">=", "CONTAINS", "CONTAINS-ANY"] : List String) :=
  ⟨whereFilterOp_table.2.2.2.2.2.2.2.2.2.2.1 "FOO" (by decide),
    whereFilterOp_table.2.2.2.2.2.2.2.2.2.2.2 "=" "==" rfl⟩

/-- C9: a well-shaped `BETWEEN` (ColumnRef on the left, two-element
ExprList on the right) applies `(col, >=, lo)` and then `(col, <=, hi)`
as two sequential conjoined refinements of the same set, so a single seed
yields one query carrying both filters; any other right-operand shape or
arity fails. -/
theorem between_rewrites (Qs : List Query) (col : String) (lo hi : SQL_Value) :
    (applyWhere Qs (.binary_expr "BETWEEN" (.column_ref col) (.expr_list [lo, hi])) =
      .ok (Qs.map fun q => (q.withFilter col ">=" (astValueToNative lo)).withFilter col "<="
        (astValueToNative hi))) ∧
    (∀ vs : List SQL_Value, vs.length ≠ 2 →
      applyWhere Qs (.binary_expr "BETWEEN" (.column_ref col) (.expr_list vs)) =
        .error msgBetween) ∧
    (∀ R : ASTNode, R.isExprList = false →
      applyWhere Qs (.binary_expr "BETWEEN" (.column_ref col) R) = .error msgBetween) := by
  refine ⟨?_, fun vs hvs => ?_, fun R hR => ?_⟩
  · show (applyCondition Qs col ">=" lo >>= fun qs => applyCondition qs col "<=" hi) = _
    rw [applyCondition_ok_op Qs col ">=" ">=" lo (by decide) rfl, exBindOk,
      applyCondition_ok_op _ col "<=" "<=" hi (by decide) rfl, List.map_map]
    rfl
  · rcases vs with _ | ⟨a, _ | ⟨b, _ | ⟨c, t⟩⟩⟩
    · rfl
    · rfl
    · exact absurd rfl hvs
    · rfl
  · cases R with
    | expr_list vs => simp [ASTNode.isExprList] at hR
    | binary_expr o a b => rfl
    | column_ref c => rfl
    | val v => rfl

/-- Witness for C9: `rating BETWEEN 2 AND 5` yields one query with the two
range filters; a one-element list fails. -/
theorem between_rewrites_witness :
    applyWhere [emptyQuery] (.binary_expr "BETWEEN" (.column_ref "rating")
        (.expr_list [.num 2, .num 5])) =
      .ok [⟨[⟨"rating", ">=", .num 2⟩, ⟨"rating", "<=", .num 5⟩]⟩] ∧
    applyWhere [emptyQuery] (.binary_expr "BETWEEN" (.column_ref "rating")
        (.expr_list [.num 2])) = .error msgBetween := by
  have h := between_rewrites [emptyQuery] "rating" (.num 2) (.num 5)
  exact ⟨h.1, h.2.1 [.num 2] (by decide)⟩

/-- C10: the pattern `'%'` takes the leading-and-trailing-`%` branch of the
decomposer and yields a `contains` result holding the empty string, so
translating `col LIKE '%'` throws the unsupported-LIKE-shape error rather
than producing any query. -/
theorem like_lone_percent_is_contains_empty (Qs : List Query) (col : String) :
    parseWhereLike "%" = { contains := some (stringASTWhereValue "") } ∧
    applyWhere Qs (.binary_expr "LIKE" (.column_ref col) (.val (.str "%"))) =
      .error msgLikeShape := ⟨rfl, rfl⟩

/-- C6: a well-shaped `LIKE` (ColumnRef on the left, string literal on the
right) whose pattern decomposes to an equality refines every query with the
single filter `col = text`; a pattern decomposing to a prefix refines every
query with the two conjoined conditions `(col, >=, prefix)` and then
`(col, <, successor(prefix))`, applied to the same set in order, so a
single seed yields one query carrying both range filters. -/
theorem like_equality_and_prefix_rewrites (Qs : List Query) (col pattern : String) :
    (∀ eqv : SQL_ValueString, (parseWhereLike pattern).equals = some eqv →
      applyWhere Qs (.binary_expr "LIKE" (.column_ref col) (.val (.str pattern))) =
        .ok (Qs.map fun q => q.withFilter col "==" (.str eqv.value))) ∧
    (∀ bw : SQL_ValueString, (parseWhereLike pattern).equals = none →
      (parseWhereLike pattern).beginsWith = some bw →
      applyWhere Qs (.binary_expr "LIKE" (.column_ref col) (.val (.str pattern))) =
        .ok (Qs.map fun q => (q.withFilter col ">=" (.str bw.value)).withFilter col "<"
          (.str (prefixSuccessor bw.value)))) := by
  constructor
  · intro eqv heq
    rw [applyWhere_like_def, heq]
    show applyCondition Qs col "=" eqv.toSQLValue = _
    rw [applyCondition_eq_op]
    rfl
  · intro bw heq hbw
    rw [applyWhere_like_def, heq, hbw]
    show (applyCondition Qs col ">=" bw.toSQLValue >>= fun qs =>
      applyCondition qs col "<" (stringASTWhereValue (prefixSuccessor bw.value)).toSQLValue) = _
    rw [applyCondition_ok_op Qs col ">=" ">=" bw.toSQLValue (by decide) rfl, exBindOk,
      applyCondition_ok_op _ col "<" "<" _ (by decide) rfl, List.map_map]
    rfl

/-- Witness for C6: `name LIKE 'Jo%'` yields one query with the two range
filters `name >= "Jo"` and `name < successor("Jo")`, and `name LIKE 'Jon'`
yields one query with the equality filter. -/
theorem like_equality_and_prefix_rewrites_witness :
    applyWhere [emptyQuery] (.binary_expr "LIKE" (.column_ref "name") (.val (.str "Jo%"))) =
      .ok [⟨[⟨"name", ">=", .str "Jo"⟩, ⟨"name", "<", .str (prefixSuccessor "Jo")⟩]⟩] ∧
    applyWhere [emptyQuery] (.binary_expr "LIKE" (.column_ref "name") (.val (.str "Jon"))) =
      .ok [⟨[⟨"name", "==", .str "Jon"⟩]⟩] :=
  ⟨(like_equality_and_prefix_rewrites [emptyQuery] "name" "Jo%").2
      (stringASTWhereValue "Jo") rfl rfl,
    (like_equality_and_prefix_rewrites [emptyQuery] "name" "Jon").1
      (stringASTWhereValue "Jon") rfl⟩

/-- C7: the LIKE pattern decomposer is total and populates exactly one of
the four result fields, determined purely by whether `%` occupies the first
and/or last character position; the unsupported shapes (`contains` and
`endsWith` decompositions) are rejected only one layer up, by the
translator, with the unsupported-LIKE-shape error. -/
theorem parseWhereLike_total_one_field (s : String) :
    (parseWhereLike s).populatedCount = 1 ∧
    ((parseWhereLike s).contains.isSome ↔
      (jsCharAt s 0 = some '%' ∧ jsCharAt s (s.length - 1) = some '%')) ∧
    ((parseWhereLike s).endsWith.isSome ↔
      (jsCharAt s 0 = some '%' ∧ ¬jsCharAt s (s.length - 1) = some '%')) ∧
    ((parseWhereLike s).beginsWith.isSome ↔
      (¬jsCharAt s 0 = some '%' ∧ jsCharAt s (s.length - 1) = some '%')) ∧
    ((parseWhereLike s).equals.isSome ↔
      (¬jsCharAt s 0 = some '%' ∧ ¬jsCharAt s (s.length - 1) = some '%')) ∧
    (∀ (Qs : List Query) (col : String),
      (parseWhereLike s).contains.isSome ∨ (parseWhereLike s).endsWith.isSome →
      applyWhere Qs (.binary_expr "LIKE" (.column_ref col) (.val (.str s))) =
        .error msgLikeShape) := by
  by_cases h1 : jsCharAt s 0 = some '%' <;> by_cases h2 : jsCharAt s (s.length - 1) = some '%'
  · have hp : parseWhereLike s =
        { contains := some (stringASTWhereValue (jsSubstr s 1 (s.length - 2))) } := by
      simp [parseWhereLike, h1, h2]
    refine ⟨by simp [hp, WhereLikeResult.populatedCount], by simp [hp, h1, h2],
      by simp [hp, h1, h2], by simp [hp, h1, h2], by simp [hp, h1, h2], ?_⟩
    intro Qs col _
    rw [applyWhere_like_def, hp]
  · have hp : parseWhereLike s =
        { endsWith := some (stringASTWhereValue (jsSubstringFrom s 1)) } := by
      simp [parseWhereLike, h1, h2]
    refine ⟨by simp [hp, WhereLikeResult.populatedCount], by simp [hp, h1, h2],
      by simp [hp, h1, h2], by simp [hp, h1, h2], by simp [hp, h1, h2], ?_⟩
    intro Qs col _
    rw [applyWhere_like_def, hp]
  · have hp : parseWhereLike s =
        { beginsWith := some (stringASTWhereValue (jsSubstr s 0 (s.length - 1))) } := by
      simp [parseWhereLike, h1, h2]
    refine ⟨by simp [hp, WhereLikeResult.populatedCount], by simp [hp, h1, h2],
      by simp [hp, h1, h2], by simp [hp, h1, h2], by simp [hp, h1, h2], ?_⟩
    intro Qs col hc
    exfalso
    simp [hp] at hc
  · have hp : parseWhereLike s = { equals := some (stringASTWhereValue s) } := by
      simp [parseWhereLike, h1, h2]
    refine ⟨by simp [hp, WhereLikeResult.populatedCount], by simp [hp, h1, h2],
      by simp [hp, h1, h2], by simp [hp, h1, h2], by simp [hp, h1, h2], ?_⟩
    intro Qs col hc
    exfalso
    simp [hp] at hc

/-- Witness for C7: `name LIKE '%abc%'` and `name LIKE '%abc'` both fail
with the unsupported-LIKE-shape error. -/
theorem parseWhereLike_total_one_field_witness :
    applyWhere [emptyQuery] (.binary_expr "LIKE" (.column_ref "name") (.val (.str "%abc%"))) =
      .error msgLikeShape ∧
    applyWhere [emptyQuery] (.binary_expr "LIKE" (.column_ref "name") (.val (.str "%abc"))) =
      .error msgLikeShape :=
  ⟨(parseWhereLike_total_one_field "%abc%").2.2.2.2.2 [emptyQuery] "name" (by decide),
    (parseWhereLike_total_one_field "%abc").2.2.2.2.2 [emptyQuery] "name" (by decide)⟩

/-- C3: when `A AND B` translates successfully against the single-query
unfiltered seed, the result is a singleton iff translating `A` alone and
translating `B` alone (against that seed) each yields a singleton; in that
case the sole resulting query's filter list is the union (concatenation)
of A's filters and B's filters. -/
theorem and_singleton_iff_filters_union (A B : ASTNode) (S : List Query)
    (h : applyWhere [emptyQuery] (.binary_expr "AND" A B) = .ok S) :
    (S.length = 1 ↔
      ((∃ SA, applyWhere [emptyQuery] A = .ok SA ∧ SA.length = 1) ∧
       (∃ SB, applyWhere [emptyQuery] B = .ok SB ∧ SB.length = 1))) ∧
    (∀ qA qB : Query, applyWhere [emptyQuery] A = .ok [qA] →
      applyWhere [emptyQuery] B = .ok [qB] →
      S = [Query.mk (qA.filters ++ qB.filters)]) := by
  replace h : (applyWhere [emptyQuery] A >>= fun qs => applyWhere qs B) = .ok S := h
  cases hA : applyWhere [emptyQuery] A with
  | error e => rw [hA, exBindErr] at h; exact Except.noConfusion h
  | ok SA =>
    rw [hA, exBindOk] at h
    obtain ⟨DA, hDA⟩ := applyWhere_canonical A [emptyQuery] SA hA
    obtain ⟨DB, hDB⟩ := applyWhere_canonical B SA S h
    have hSAeq : SA = applyDeltas [emptyQuery] DA := by
      have hx := hDA [emptyQuery]
      rw [hA] at hx
      exact Except.ok.inj hx
    have hSeq : S = applyDeltas SA DB := by
      have hx := hDB SA
      rw [h] at hx
      exact Except.ok.inj hx
    have hSAlen : SA.length = DA.length := by rw [hSAeq, applyDeltas_length]; simp
    have hSlen : S.length = DB.length * SA.length := by rw [hSeq, applyDeltas_length]
    have hB0 : applyWhere [emptyQuery] B = .ok (applyDeltas [emptyQuery] DB) := hDB [emptyQuery]
    have hB0len : (applyDeltas [emptyQuery] DB).length = DB.length := by
      rw [applyDeltas_length]; simp
    constructor
    · constructor
      · intro h1
        rw [hSlen] at h1
        have hDB1 : DB.length = 1 := Nat.eq_one_of_mul_eq_one_right h1
        have hSA1 : SA.length = 1 := Nat.eq_one_of_mul_eq_one_left h1
        exact ⟨⟨SA, rfl, hSA1⟩,
          ⟨applyDeltas [emptyQuery] DB, hB0, by rw [hB0len, hDB1]⟩⟩
      · rintro ⟨⟨SA', hA', hSA1⟩, ⟨SB', hB', hSB1⟩⟩
        have hSA'eq : SA = SA' := Except.ok.inj hA'
        rw [hB0] at hB'
        have hSB'eq : applyDeltas [emptyQuery] DB = SB' := Except.ok.inj hB'
        rw [hSlen]
        rw [← hSA'eq] at hSA1
        rw [← hSB'eq] at hSB1
        rw [hB0len] at hSB1
        rw [hSA1, hSB1]
    · intro qA qB hqA hqB
      have hSA' : SA = [qA] := Except.ok.inj hqA
      rw [hB0] at hqB
      have hDB' : applyDeltas [emptyQuery] DB = [qB] := Except.ok.inj hqB
      rw [applyDeltas_seed] at hDB'
      obtain ⟨dB, hDBeq, hqBeq⟩ : ∃ dB, DB = [dB] ∧ Query.mk dB = qB := by
        cases DB with
        | nil => exact absurd hDB' (by simp)
        | cons d tail =>
          cases tail with
          | nil =>
            refine ⟨d, rfl, ?_⟩
            injection hDB' with hh1 hh2
          | cons d2 t2 =>
            injection hDB' with hh1 hh2
            simp at hh2
      rw [hSeq, hSA', hDBeq, applyDeltas_singleton, ← hqBeq]
      rfl

/-- Witness for C3 at `a = 1 AND b = 2` against the single-query seed. -/
theorem and_singleton_iff_filters_union_witness :
    (([(⟨[⟨"a", "==", .num 1⟩, ⟨"b", "==", .num 2⟩]⟩ : Query)] : List Query).length = 1 ↔
      ((∃ SA, applyWhere [emptyQuery]
          (.binary_expr "=" (.column_ref "a") (.val (.num 1))) = .ok SA ∧ SA.length = 1) ∧
       (∃ SB, applyWhere [emptyQuery]
          (.binary_expr "=" (.column_ref "b") (.val (.num 2))) = .ok SB ∧ SB.length = 1))) ∧
    ([(⟨[⟨"a", "==", .num 1⟩, ⟨"b", "==", .num 2⟩]⟩ : Query)] : List Query) =
      [Query.mk ((⟨[⟨"a", "==", .num 1⟩]⟩ : Query).filters ++
        (⟨[⟨"b", "==", .num 2⟩]⟩ : Query).filters)] := by
  have h := and_singleton_iff_filters_union
    (.binary_expr "=" (.column_ref "a") (.val (.num 1)))
    (.binary_expr "=" (.column_ref "b") (.val (.num 2)))
    [⟨[⟨"a", "==", .num 1⟩, ⟨"b", "==", .num 2⟩]⟩] rfl
  exact ⟨h.1, h.2 ⟨[⟨"a", "==", .num 1⟩]⟩ ⟨[⟨"b", "==", .num 2⟩]⟩ rfl rfl⟩

end FireSQL
